import Mathlib

/-!
# Verification of the BurzaAssistant streaming core

A shallow embedding of the per-session streaming pipeline of the
BurzaAssistant repository, together with proofs of the specified
properties.

The backend concurrency controller (`ProcessingStateManager`), the
pipeline orchestration and the LLM pipelines are described by the
specification and by the repository's backend documentation; their
Python source is not part of the source tree, so those components are
modelled from the spec.  The frontend services
(`audioCaptureService.ts`, `websocketService.ts`) are embedded directly
from their TypeScript source.
-/

/-! ## ProcessingStateManager (spec §4.3)

Modelled from the spec: the backend `ProcessingStateManager` of
`backend/services/llm_service.py` is only documented, not present in
the source tree.  A slot is a `(session, kind)` key with a start time;
the manager holds the set of busy slots. -/

/-- The two LLM operation kinds tracked per session. -/
inductive OpKind
  | summary
  | mindMap
deriving DecidableEq, Repr

/-- Modelled from the spec: the state of `ProcessingStateManager` — the
collection of busy `ProcessingSlot`s, keyed by `(session, kind)`, each
carrying its start time. -/
structure PSMState where
  slots : List ((String × OpKind) × Nat)
deriving Repr

/-- Whether the slot for `(s, k)` is busy. -/
def PSMState.busy (st : PSMState) (s : String) (k : OpKind) : Bool :=
  st.slots.any (fun e => e.1.1 == s && e.1.2 == k)

/-- Start time of the busy slot for `(s, k)`, if any. -/
def PSMState.startTime (st : PSMState) (s : String) (k : OpKind) : Option Nat :=
  (st.slots.find? (fun e => e.1.1 == s && e.1.2 == k)).map (·.2)

/-- Modelled from the spec: `try_start(session_id, kind)`
(`start_processing` in the backend docs) — atomically checks that no
slot with this `(session, kind)` is busy; if free, marks it busy with
start time = `now` and returns `true`, otherwise returns `false`. -/
def tryStart (st : PSMState) (s : String) (k : OpKind) (now : Nat) :
    Bool × PSMState :=
  if st.busy s k then (false, st)
  else (true, ⟨((s, k), now) :: st.slots⟩)

/-- Modelled from the spec: `stop(session_id, kind)`
(`stop_processing`) — clears the slot; session state with no busy
slots is dropped entirely (automatic in this representation). -/
def stopProcessing (st : PSMState) (s : String) (k : OpKind) : PSMState :=
  ⟨st.slots.filter (fun e => !(e.1.1 == s && e.1.2 == k))⟩

/-- Events applied to the manager for a trace. -/
inductive PSMEvent
  | tryStartEv (s : String) (k : OpKind) (now : Nat)
  | stopEv (s : String) (k : OpKind)
deriving DecidableEq, Repr

/-- One event step of the manager. -/
def PSMState.step (st : PSMState) : PSMEvent → PSMState
  | .tryStartEv s k now => (tryStart st s k now).2
  | .stopEv s k => stopProcessing st s k

/-- Run a trace of events. -/
def PSMState.run (st : PSMState) : List PSMEvent → PSMState
  | [] => st
  | e :: es => (st.step e).run es

lemma busy_of_tryStart_true {st : PSMState} {s : String} {k : OpKind}
    {t : Nat} (h : (tryStart st s k t).1 = true) :
    ((tryStart st s k t).2).busy s k = true := by
  unfold tryStart at *
  by_cases hb : st.busy s k = true
  · simp [hb] at h
  · simp only [Bool.not_eq_true] at hb
    simp only [hb, Bool.false_eq_true, if_false]
    simp [PSMState.busy]

lemma busy_preserved_step {st : PSMState} {s : String} {k : OpKind}
    (h : st.busy s k = true) (e : PSMEvent)
    (hne : e ≠ PSMEvent.stopEv s k) : (st.step e).busy s k = true := by
  cases e with
  | tryStartEv s' k' t' =>
    simp only [PSMState.step, tryStart]
    by_cases hb : st.busy s' k' = true
    · simpa [hb] using h
    · simp only [Bool.not_eq_true] at hb
      simp only [hb, Bool.false_eq_true, if_false]
      simp only [PSMState.busy, List.any_cons] at h ⊢
      simp [h]
  | stopEv s' k' =>
    simp only [PSMState.step, stopProcessing, PSMState.busy,
      List.any_eq_true] at h ⊢
    obtain ⟨x, hx, hpx⟩ := h
    refine ⟨x, List.mem_filter.mpr ⟨hx, ?_⟩, hpx⟩
    simp only [Bool.and_eq_true, beq_iff_eq] at hpx
    have hkey : ¬(s' = s ∧ k' = k) := by
      rintro ⟨h1, h2⟩
      exact hne (by rw [h1, h2])
    simp only [hpx.1, hpx.2, Bool.not_eq_eq_eq_not, Bool.not_true,
      Bool.and_eq_false_iff, beq_eq_false_iff_ne, ne_eq]
    by_cases hs : s = s'
    · right
      exact fun hk => hkey ⟨hs.symm, hk.symm⟩
    · left
      exact fun hss => hs hss

lemma busy_preserved_run {st : PSMState} {s : String} {k : OpKind}
    (h : st.busy s k = true) (evs : List PSMEvent)
    (hne : ∀ e ∈ evs, e ≠ PSMEvent.stopEv s k) :
    (st.run evs).busy s k = true := by
  induction evs generalizing st with
  | nil => exact h
  | cons e es ih =>
    simp only [PSMState.run]
    exact ih (busy_preserved_step h e (hne e (List.mem_cons_self e es)))
      (fun x hx => hne x (List.mem_cons_of_mem e hx))

lemma tryStart_of_busy {st : PSMState} {s : String} {k : OpKind}
    (h : st.busy s k = true) (t : Nat) : tryStart st s k t = (false, st) := by
  simp [tryStart, h]

/-- C1: for every session id and operation kind, `try_start` returns
true at most once between successive `stop`s for that `(session, kind)`
pair: if the slot is free it is atomically marked busy with start time
= now and `true` is returned; otherwise `false` is returned and the
slot is unchanged; and once a `try_start` has succeeded, every further
`try_start` for the same pair fails (leaving the state unchanged) as
long as no `stop` for that pair intervenes. -/
theorem tryStart_mutual_exclusion (st : PSMState) (s : String) (k : OpKind)
    (t : Nat) :
    (st.busy s k = false →
      (tryStart st s k t).1 = true ∧
      ((tryStart st s k t).2).startTime s k = some t) ∧
    (st.busy s k = true → tryStart st s k t = (false, st)) ∧
    (∀ evs : List PSMEvent, (∀ e ∈ evs, e ≠ PSMEvent.stopEv s k) →
      (tryStart st s k t).1 = true →
      ∀ t', tryStart (((tryStart st s k t).2).run evs) s k t' =
        (false, ((tryStart st s k t).2).run evs)) := by
  refine ⟨?_, ?_, ?_⟩
  · intro h
    constructor
    · simp [tryStart, h]
    · simp [tryStart, h, PSMState.startTime]
  · intro h
    exact tryStart_of_busy h t
  · intro evs hne hstart t'
    exact tryStart_of_busy
      (busy_preserved_run (busy_of_tryStart_true hstart) evs hne) t'

theorem tryStart_mutual_exclusion_witness :
    (tryStart ⟨[]⟩ "s1" OpKind.summary 3).1 = true ∧
    ((tryStart ⟨[]⟩ "s1" OpKind.summary 3).2).startTime "s1"
      OpKind.summary = some 3 ∧
    tryStart ((((tryStart ⟨[]⟩ "s1" OpKind.summary 3).2)).run
        [PSMEvent.stopEv "s2" OpKind.summary]) "s1" OpKind.summary 9 =
      (false, (((tryStart ⟨[]⟩ "s1" OpKind.summary 3).2)).run
        [PSMEvent.stopEv "s2" OpKind.summary]) := by
  have h := tryStart_mutual_exclusion ⟨[]⟩ "s1" OpKind.summary 3
  have h1 := h.1 (by decide)
  refine ⟨h1.1, h1.2, ?_⟩
  exact h.2.2 [PSMEvent.stopEv "s2" OpKind.summary] (by decide) h1.1 9

/-- C2: the summary and mind-map slots of a session are independent:
whenever the mind-map slot of a session is free, `try_start` for the
mind-map kind succeeds regardless of the summary slot (and vice
versa); in particular, starting both kinds in turn leaves both busy
simultaneously for the same session. -/
theorem summary_mindMap_independent (st : PSMState) (s : String)
    (t₁ t₂ : Nat) :
    (st.busy s OpKind.mindMap = false →
      (tryStart st s OpKind.mindMap t₁).1 = true) ∧
    (st.busy s OpKind.summary = false →
      (tryStart st s OpKind.summary t₁).1 = true) ∧
    (st.busy s OpKind.summary = false → st.busy s OpKind.mindMap = false →
      (tryStart st s OpKind.summary t₁).1 = true ∧
      (tryStart (tryStart st s OpKind.summary t₁).2 s OpKind.mindMap t₂).1
        = true ∧
      ((tryStart (tryStart st s OpKind.summary t₁).2 s OpKind.mindMap
        t₂).2).busy s OpKind.summary = true ∧
      ((tryStart (tryStart st s OpKind.summary t₁).2 s OpKind.mindMap
        t₂).2).busy s OpKind.mindMap = true) := by
  refine ⟨fun h => by simp [tryStart, h], fun h => by simp [tryStart, h], ?_⟩
  intro hsum hmm
  have h1 : tryStart st s OpKind.summary t₁ =
      (true, ⟨((s, OpKind.summary), t₁) :: st.slots⟩) := by
    simp [tryStart, hsum]
  rw [h1]
  have hmm' : (PSMState.mk (((s, OpKind.summary), t₁) :: st.slots)).busy s
      OpKind.mindMap = false := by
    simp only [PSMState.busy, List.any_cons, Bool.or_eq_false_iff] at hmm ⊢
    exact ⟨by simp, hmm⟩
  have h2 : tryStart ⟨((s, OpKind.summary), t₁) :: st.slots⟩ s
      OpKind.mindMap t₂ =
      (true,
        ⟨((s, OpKind.mindMap), t₂) :: ((s, OpKind.summary), t₁) ::
          st.slots⟩) := by
    simp [tryStart, hmm']
  rw [h2]
  refine ⟨rfl, rfl, ?_, ?_⟩ <;> simp [PSMState.busy]

theorem summary_mindMap_independent_witness :
    (tryStart ⟨[(("s1", OpKind.summary), 0)]⟩ "s1" OpKind.mindMap 1).1
      = true ∧
    (tryStart (tryStart ⟨[]⟩ "s1" OpKind.summary 0).2 "s1" OpKind.mindMap
      1).1 = true := by
  have h1 := (summary_mindMap_independent ⟨[(("s1", OpKind.summary), 0)]⟩
    "s1" 1 2).1 (by decide)
  have h2 := ((summary_mindMap_independent ⟨[]⟩ "s1" 0 1).2.2 (by decide)
    (by decide)).2.1
  exact ⟨h1, h2⟩

/-! ## Mind-map data model and pipelines (spec §3, §4.4–§4.6)

Modelled from the spec: the backend LLM service
(`backend/services/llm_service.py`, documented in
`SEPARATE_LLM_MODELS.md` and the processing-queue docs) is not part of
the source tree.  The LLM engine and the JSON parser proper are
black boxes (`invoke`, `parse` parameters); prompt composition, the
`"none"` sentinel guard, the single repair attempt, validation and
persistence follow the spec's words. -/

/-- A mind-map node: `{id, label}`. -/
structure MindMapNode where
  id : String
  label : String
deriving DecidableEq, Repr

/-- A mind-map edge: `{id, source, target}`. -/
structure MindMapEdge where
  id : String
  source : String
  target : String
deriving DecidableEq, Repr

/-- A mind map: `{nodes, edges}`. -/
structure MindMap where
  nodes : List MindMapNode
  edges : List MindMapEdge
deriving DecidableEq, Repr

/-- Modelled from the spec: mind-map validation — every node has a
non-empty `id` and `label`, node ids are unique, every edge has a
unique id and `source`/`target` exist in the node set. -/
def validateMindMap (m : MindMap) : Bool :=
  m.nodes.all (fun n => !(n.id == "") && !(n.label == "")) &&
  decide (m.nodes.map MindMapNode.id).Nodup &&
  decide (m.edges.map MindMapEdge.id).Nodup &&
  m.edges.all (fun e =>
    decide (e.source ∈ m.nodes.map MindMapNode.id) &&
    decide (e.target ∈ m.nodes.map MindMapNode.id))

/-- Parse-then-validate: the black-box JSON extraction `parse`
followed by structural validation. -/
def parseValidate (parse : String → Option MindMap) (raw : String) :
    Option MindMap :=
  match parse raw with
  | some m => if validateMindMap m then some m else none
  | none => none

/-- Outcome of a mind-map pipeline run. -/
inductive MMResult
  | persisted (m : MindMap)
  | invalidMindMap (raw : String)
deriving DecidableEq, Repr

/-- Modelled from the spec: the repair prompt quotes the offending raw
output and asks for a corrected JSON-only response. -/
def mindMapRepairPrompt (raw : String) : String :=
  "The previous response was not valid JSON:\n" ++ raw ++
  "\nReturn a corrected JSON-only response with shape " ++
  "\x7b nodes: [...], edges: [...] \x7d."

/-- Modelled from the spec (§4.6 step 5): run the mind-map LLM step —
invoke once, parse and validate; on failure perform exactly one repair
re-invocation (`_attempt_json_correction`); if the repair also fails,
surface `InvalidMindMap` with the raw response attached and persist
nothing.  The second component counts LLM invocations. -/
def runMindMapLLM (invoke : String → String)
    (parse : String → Option MindMap) (prompt : String) : MMResult × Nat :=
  let r1 := invoke prompt
  match parseValidate parse r1 with
  | some m => (MMResult.persisted m, 1)
  | none =>
    let r2 := invoke (mindMapRepairPrompt r1)
    match parseValidate parse r2 with
    | some m => (MMResult.persisted m, 2)
    | none => (MMResult.invalidMindMap r2, 2)

/-- A transcript event: a persisted transcript for a session. -/
structure TranscriptEv where
  sessionId : String
  text : String
deriving DecidableEq, Repr

/-- A persisted `Analysis` row (summary result). -/
structure AnalysisRow where
  sessionId : String
  prompt : String
  response : String
  model : String
deriving Repr

/-- A persisted `MindMap` row. -/
structure MindMapRow where
  sessionId : String
  map : MindMap
  model : String
deriving DecidableEq, Repr

/-- Effective settings fields the pipelines need. -/
structure Settings where
  summaryModel : String
  mindMapModel : String
  summaryPrompt : String
  mindMapPrompt : String
deriving Repr

/-- Modelled from the spec (§4.5 step 3): substitute the transcript
text for the literal marker `{transcript}` in the prompt template; if
the marker is absent, append the text on a new line. -/
def composePrompt (template : String) (t : String) : String :=
  let parts := template.splitOn "\x7btranscript\x7d"
  if parts.length = 1 then template ++ "\n" ++ t
  else String.intercalate t parts

/-- Orchestrator state: the processing-state manager, the persisted
rows, and a record of which `(session, kind)` pairs `try_start` was
called for. -/
structure OrchState where
  psm : PSMState
  transcripts : List TranscriptEv
  analyses : List AnalysisRow
  mindMaps : List MindMapRow
  tryStartCalls : List (String × OpKind)
  clock : Nat
deriving Repr

/-- The initial orchestrator state: nothing persisted, no busy slot. -/
def initOrch : OrchState := ⟨⟨[]⟩, [], [], [], [], 0⟩

/-- Texts of the session's transcripts, in insertion order. -/
def sessionTexts (st : OrchState) (sid : String) : List String :=
  (st.transcripts.filter (fun tr => tr.sessionId == sid)).map (·.text)

/-- Modelled from the spec (§4.4–§4.5): the summary arm of the
orchestrator on one `NewTranscript` signal — skip silently when the
summary model is `"none"` (before `try_start` is called); otherwise
call `try_start`; on success run the summary pipeline (load
transcripts, compose the prompt, invoke the LLM, persist an `Analysis`
row) and release the slot; on `NoContent` or refusal, persist
nothing. -/
def summaryStep (cfg : Settings) (invokeS : String → String)
    (st : OrchState) (sid : String) : OrchState :=
  if cfg.summaryModel = "none" then st
  else
    let st1 : OrchState :=
      { st with tryStartCalls := st.tryStartCalls ++ [(sid, OpKind.summary)] }
    let r := tryStart st1.psm sid OpKind.summary st1.clock
    if r.1 then
      let texts := sessionTexts st1 sid
      let psm2 := stopProcessing r.2 sid OpKind.summary
      if texts.isEmpty then { st1 with psm := psm2 }
      else
        let prompt := composePrompt cfg.summaryPrompt
          (String.intercalate " " texts)
        { st1 with
            psm := psm2
            analyses := st1.analyses ++
              [⟨sid, prompt, invokeS prompt, cfg.summaryModel⟩] }
    else { st1 with psm := r.2 }

/-- Modelled from the spec (§4.4, §4.6): the mind-map arm of the
orchestrator on one `NewTranscript` signal — skip silently when the
mind-map model is `"none"`; otherwise `try_start`, run the mind-map
pipeline with its single-repair LLM step, persist the `MindMap` row
only when the run produced a validated map, and release the slot. -/
def mindMapStep (cfg : Settings) (invokeM : String → String)
    (parse : String → Option MindMap) (st : OrchState) (sid : String) :
    OrchState :=
  if cfg.mindMapModel = "none" then st
  else
    let st1 : OrchState :=
      { st with tryStartCalls := st.tryStartCalls ++ [(sid, OpKind.mindMap)] }
    let r := tryStart st1.psm sid OpKind.mindMap st1.clock
    if r.1 then
      let texts := sessionTexts st1 sid
      let psm2 := stopProcessing r.2 sid OpKind.mindMap
      if texts.isEmpty then { st1 with psm := psm2 }
      else
        let prompt := composePrompt cfg.mindMapPrompt
          (String.intercalate " " texts)
        match (runMindMapLLM invokeM parse prompt).1 with
        | MMResult.persisted m =>
          { st1 with
              psm := psm2
              mindMaps := st1.mindMaps ++ [⟨sid, m, cfg.mindMapModel⟩] }
        | MMResult.invalidMindMap _ => { st1 with psm := psm2 }
    else { st1 with psm := r.2 }

/-- One `NewTranscript` signal: persist the transcript, then run the
summary arm and the mind-map arm. -/
def onNewTranscript (cfg : Settings) (invokeS invokeM : String → String)
    (parse : String → Option MindMap) (st : OrchState)
    (tr : TranscriptEv) : OrchState :=
  let st1 : OrchState :=
    { st with transcripts := st.transcripts ++ [tr], clock := st.clock + 1 }
  mindMapStep cfg invokeM parse (summaryStep cfg invokeS st1 tr.sessionId)
    tr.sessionId

/-- Run the orchestrator over a sequence of inbound transcripts. -/
def runOrch (cfg : Settings) (invokeS invokeM : String → String)
    (parse : String → Option MindMap) (st : OrchState) :
    List TranscriptEv → OrchState
  | [] => st
  | tr :: trs =>
    runOrch cfg invokeS invokeM parse
      (onNewTranscript cfg invokeS invokeM parse st tr) trs

/-- C4: every mind-map LLM step makes at most two invocations; a first
parse/validation failure triggers exactly one repair re-invocation;
and when the repair also fails the run surfaces `InvalidMindMap` with
the raw response attached and persists nothing. -/
theorem mindMap_repair_bounded (invoke : String → String)
    (parse : String → Option MindMap) (prompt : String) :
    (runMindMapLLM invoke parse prompt).2 ≤ 2 ∧
    (parseValidate parse (invoke prompt) = none →
      (runMindMapLLM invoke parse prompt).2 = 2) ∧
    (parseValidate parse (invoke prompt) = none →
      parseValidate parse
        (invoke (mindMapRepairPrompt (invoke prompt))) = none →
      (runMindMapLLM invoke parse prompt).1 =
        MMResult.invalidMindMap
          (invoke (mindMapRepairPrompt (invoke prompt))) ∧
      ∀ m, (runMindMapLLM invoke parse prompt).1 ≠ MMResult.persisted m) := by
  simp only [runMindMapLLM]
  rcases h1 : parseValidate parse (invoke prompt) with _ | m1
  · rcases h2 : parseValidate parse
        (invoke (mindMapRepairPrompt (invoke prompt))) with _ | m2
    · refine ⟨by simp [h1, h2], fun _ => by simp [h1, h2], fun _ _ => ?_⟩
      simp [h1, h2]
    · refine ⟨by simp [h1, h2], fun _ => by simp [h1, h2], fun _ hc => ?_⟩
      exact absurd hc (by simp)
  · refine ⟨by simp [h1], fun hc => ?_, fun hc _ => ?_⟩ <;>
      exact absurd hc (by simp)

theorem mindMap_repair_bounded_witness :
    (runMindMapLLM (fun _ => "bad") (fun _ => none) "prompt").2 = 2 ∧
    (runMindMapLLM (fun _ => "bad") (fun _ => none) "prompt").1 =
      MMResult.invalidMindMap "bad" := by
  have h := mindMap_repair_bounded (fun _ => "bad") (fun _ => none) "prompt"
  exact ⟨h.2.1 rfl, (h.2.2 rfl rfl).1⟩

lemma parseValidate_valid {parse : String → Option MindMap} {raw : String}
    {m : MindMap} (h : parseValidate parse raw = some m) :
    validateMindMap m = true := by
  unfold parseValidate at h
  rcases hp : parse raw with _ | m'
  · rw [hp] at h; exact absurd h (by simp)
  · rw [hp] at h
    by_cases hv : validateMindMap m' = true
    · simp [hv] at h
      rw [← h]
      exact hv
    · simp only [Bool.not_eq_true] at hv
      simp [hv] at h

lemma runMindMapLLM_persisted_valid {invoke : String → String}
    {parse : String → Option MindMap} {prompt : String} {m : MindMap}
    (h : (runMindMapLLM invoke parse prompt).1 = MMResult.persisted m) :
    validateMindMap m = true := by
  simp only [runMindMapLLM] at h
  rcases h1 : parseValidate parse (invoke prompt) with _ | m1
  · rcases h2 : parseValidate parse
        (invoke (mindMapRepairPrompt (invoke prompt))) with _ | m2
    · rw [h1, h2] at h
      exact absurd h (by simp)
    · rw [h1, h2] at h
      simp only [MMResult.persisted.injEq] at h
      exact h ▸ parseValidate_valid h2
  · rw [h1] at h
    simp only [MMResult.persisted.injEq] at h
    exact h ▸ parseValidate_valid h1

lemma summaryStep_none {cfg : Settings} (h : cfg.summaryModel = "none")
    (invokeS : String → String) (st : OrchState) (sid : String) :
    summaryStep cfg invokeS st sid = st := by
  simp [summaryStep, h]

lemma mindMapStep_none {cfg : Settings} (h : cfg.mindMapModel = "none")
    (invokeM : String → String) (parse : String → Option MindMap)
    (st : OrchState) (sid : String) :
    mindMapStep cfg invokeM parse st sid = st := by
  simp [mindMapStep, h]

lemma mindMapStep_analyses (cfg : Settings) (invokeM : String → String)
    (parse : String → Option MindMap) (st : OrchState) (sid : String) :
    (mindMapStep cfg invokeM parse st sid).analyses = st.analyses := by
  simp only [mindMapStep]
  split
  · rfl
  · split
    · split
      · rfl
      · split <;> rfl
    · rfl

lemma mindMapStep_calls (cfg : Settings) (invokeM : String → String)
    (parse : String → Option MindMap) (st : OrchState) (sid : String) :
    ∀ c ∈ (mindMapStep cfg invokeM parse st sid).tryStartCalls,
      c ∈ st.tryStartCalls ∨ c.2 = OpKind.mindMap := by
  intro c hc
  simp only [mindMapStep] at hc
  have key : c ∈ st.tryStartCalls ++ [(sid, OpKind.mindMap)] →
      c ∈ st.tryStartCalls ∨ c.2 = OpKind.mindMap := by
    intro hmem
    rcases List.mem_append.mp hmem with h | h
    · exact Or.inl h
    · right
      rw [List.mem_singleton.mp h]
  split at hc
  · exact Or.inl hc
  · split at hc
    · split at hc
      · exact key hc
      · split at hc <;> exact key hc
    · exact key hc

lemma summaryStep_mindMaps (cfg : Settings) (invokeS : String → String)
    (st : OrchState) (sid : String) :
    (summaryStep cfg invokeS st sid).mindMaps = st.mindMaps := by
  simp only [summaryStep]
  split
  · rfl
  · split
    · split <;> rfl
    · rfl

lemma summaryStep_calls (cfg : Settings) (invokeS : String → String)
    (st : OrchState) (sid : String) :
    ∀ c ∈ (summaryStep cfg invokeS st sid).tryStartCalls,
      c ∈ st.tryStartCalls ∨ c.2 = OpKind.summary := by
  intro c hc
  simp only [summaryStep] at hc
  have key : c ∈ st.tryStartCalls ++ [(sid, OpKind.summary)] →
      c ∈ st.tryStartCalls ∨ c.2 = OpKind.summary := by
    intro hmem
    rcases List.mem_append.mp hmem with h | h
    · exact Or.inl h
    · right
      rw [List.mem_singleton.mp h]
  split at hc
  · exact Or.inl hc
  · split at hc
    · split at hc <;> exact key hc
    · exact key hc

lemma runOrch_summary_none {cfg : Settings}
    (h : cfg.summaryModel = "none") (invokeS invokeM : String → String)
    (parse : String → Option MindMap) (st : OrchState)
    (trs : List TranscriptEv) :
    (runOrch cfg invokeS invokeM parse st trs).analyses = st.analyses ∧
    (∀ c ∈ (runOrch cfg invokeS invokeM parse st trs).tryStartCalls,
      c ∈ st.tryStartCalls ∨ c.2 = OpKind.mindMap) := by
  induction trs generalizing st with
  | nil => exact ⟨rfl, fun c hc => Or.inl hc⟩
  | cons tr trs ih =>
    simp only [runOrch, onNewTranscript, summaryStep_none h]
    set st1 : OrchState :=
      { st with transcripts := st.transcripts ++ [tr],
                clock := st.clock + 1 } with hst1
    have hmm := mindMapStep_analyses cfg invokeM parse st1 tr.sessionId
    have hmc := mindMapStep_calls cfg invokeM parse st1 tr.sessionId
    obtain ⟨ha, hc⟩ := ih (mindMapStep cfg invokeM parse st1
      tr.sessionId)
    refine ⟨by rw [ha, hmm], fun c hcm => ?_⟩
    rcases hc c hcm with hin | hk
    · rcases hmc c hin with hin2 | hk2
      · exact Or.inl hin2
      · exact Or.inr hk2
    · exact Or.inr hk

lemma runOrch_mindMap_none {cfg : Settings}
    (h : cfg.mindMapModel = "none") (invokeS invokeM : String → String)
    (parse : String → Option MindMap) (st : OrchState)
    (trs : List TranscriptEv) :
    (runOrch cfg invokeS invokeM parse st trs).mindMaps = st.mindMaps ∧
    (∀ c ∈ (runOrch cfg invokeS invokeM parse st trs).tryStartCalls,
      c ∈ st.tryStartCalls ∨ c.2 = OpKind.summary) := by
  induction trs generalizing st with
  | nil => exact ⟨rfl, fun c hc => Or.inl hc⟩
  | cons tr trs ih =>
    simp only [runOrch, onNewTranscript, mindMapStep_none h]
    set st1 : OrchState :=
      { st with transcripts := st.transcripts ++ [tr],
                clock := st.clock + 1 } with hst1
    have hsm := summaryStep_mindMaps cfg invokeS st1 tr.sessionId
    have hsc := summaryStep_calls cfg invokeS st1 tr.sessionId
    obtain ⟨ha, hc⟩ := ih (summaryStep cfg invokeS st1 tr.sessionId)
    refine ⟨by rw [ha, hsm], fun c hcm => ?_⟩
    rcases hc c hcm with hin | hk
    · rcases hsc c hin with hin2 | hk2
      · exact Or.inl hin2
      · exact Or.inr hk2
    · exact Or.inr hk

/-- C3: when the effective summary model is the case-sensitive string
`"none"`, the summary kind is skipped silently before `try_start` is
called and no `Analysis` row is ever written, for every sequence of
inbound transcripts; the same holds for the mind-map kind with respect
to `MindMap` rows. -/
theorem none_model_disables_pipeline (cfg : Settings)
    (invokeS invokeM : String → String)
    (parse : String → Option MindMap) (trs : List TranscriptEv) :
    (cfg.summaryModel = "none" →
      (runOrch cfg invokeS invokeM parse initOrch trs).analyses = [] ∧
      ∀ sid, (sid, OpKind.summary) ∉
        (runOrch cfg invokeS invokeM parse initOrch trs).tryStartCalls) ∧
    (cfg.mindMapModel = "none" →
      (runOrch cfg invokeS invokeM parse initOrch trs).mindMaps = [] ∧
      ∀ sid, (sid, OpKind.mindMap) ∉
        (runOrch cfg invokeS invokeM parse initOrch trs).tryStartCalls) := by
  constructor
  · intro h
    obtain ⟨ha, hc⟩ := runOrch_summary_none h invokeS invokeM parse
      initOrch trs
    refine ⟨ha, fun sid hmem => ?_⟩
    rcases hc (sid, OpKind.summary) hmem with hin | hk
    · simp [initOrch] at hin
    · exact absurd hk (by simp)
  · intro h
    obtain ⟨ha, hc⟩ := runOrch_mindMap_none h invokeS invokeM parse
      initOrch trs
    refine ⟨ha, fun sid hmem => ?_⟩
    rcases hc (sid, OpKind.mindMap) hmem with hin | hk
    · simp [initOrch] at hin
    · exact absurd hk (by simp)

theorem none_model_disables_pipeline_witness :
    (runOrch ⟨"none", "none", "p", "q"⟩ (fun _ => "r") (fun _ => "r")
      (fun _ => none) initOrch [⟨"s", "hello"⟩]).analyses = [] ∧
    (runOrch ⟨"none", "none", "p", "q"⟩ (fun _ => "r") (fun _ => "r")
      (fun _ => none) initOrch [⟨"s", "hello"⟩]).mindMaps = [] := by
  have h := none_model_disables_pipeline ⟨"none", "none", "p", "q"⟩
    (fun _ => "r") (fun _ => "r") (fun _ => none) [⟨"s", "hello"⟩]
  exact ⟨(h.1 rfl).1, (h.2 rfl).1⟩

lemma validateMindMap_structure {m : MindMap}
    (h : validateMindMap m = true) :
    (m.nodes.map MindMapNode.id).dedup.length = m.nodes.length ∧
    ∀ e ∈ m.edges, e.source ∈ m.nodes.map MindMapNode.id ∧
      e.target ∈ m.nodes.map MindMapNode.id := by
  unfold validateMindMap at h
  simp only [Bool.and_eq_true, decide_eq_true_eq, List.all_eq_true] at h
  obtain ⟨⟨⟨_, hnodup⟩, _⟩, hedges⟩ := h
  constructor
  · rw [List.dedup_eq_self.mpr hnodup, List.length_map]
  · intro e he
    have := hedges e he
    simp only [Bool.and_eq_true, decide_eq_true_eq] at this
    exact this

lemma mindMapStep_rows (cfg : Settings) (invokeM : String → String)
    (parse : String → Option MindMap) (st : OrchState) (sid : String) :
    ∀ r ∈ (mindMapStep cfg invokeM parse st sid).mindMaps,
      r ∈ st.mindMaps ∨ validateMindMap r.map = true := by
  intro r hr
  simp only [mindMapStep] at hr
  split at hr
  · exact Or.inl hr
  · split at hr
    · split at hr
      · exact Or.inl hr
      · split at hr
        · rcases List.mem_append.mp hr with h | h
          · exact Or.inl h
          · right
            rw [List.mem_singleton.mp h]
            next m heq => exact runMindMapLLM_persisted_valid heq
        · exact Or.inl hr
    · exact Or.inl hr

lemma runOrch_rows (cfg : Settings) (invokeS invokeM : String → String)
    (parse : String → Option MindMap) (st : OrchState)
    (trs : List TranscriptEv) :
    ∀ r ∈ (runOrch cfg invokeS invokeM parse st trs).mindMaps,
      r ∈ st.mindMaps ∨ validateMindMap r.map = true := by
  induction trs generalizing st with
  | nil => exact fun r hr => Or.inl hr
  | cons tr trs ih =>
    intro r hr
    simp only [runOrch, onNewTranscript] at hr
    set st1 : OrchState :=
      { st with transcripts := st.transcripts ++ [tr],
                clock := st.clock + 1 } with hst1
    rcases ih (mindMapStep cfg invokeM parse
        (summaryStep cfg invokeS st1 tr.sessionId) tr.sessionId) r hr with
      hin | hv
    · rcases mindMapStep_rows cfg invokeM parse
          (summaryStep cfg invokeS st1 tr.sessionId) tr.sessionId r hin with
        hin2 | hv2
      · rw [summaryStep_mindMaps] at hin2
        exact Or.inl hin2
      · exact Or.inr hv2
    · exact Or.inr hv

/-- C5: every persisted `MindMap` is structurally valid: the number of
distinct node ids equals the number of nodes, and every edge's source
and target are ids of nodes in the same map. -/
theorem persisted_mindMap_structurally_valid (cfg : Settings)
    (invokeS invokeM : String → String)
    (parse : String → Option MindMap) (trs : List TranscriptEv)
    (r : MindMapRow)
    (hr : r ∈ (runOrch cfg invokeS invokeM parse initOrch trs).mindMaps) :
    (r.map.nodes.map MindMapNode.id).dedup.length = r.map.nodes.length ∧
    ∀ e ∈ r.map.edges, e.source ∈ r.map.nodes.map MindMapNode.id ∧
      e.target ∈ r.map.nodes.map MindMapNode.id := by
  rcases runOrch_rows cfg invokeS invokeM parse initOrch trs r hr with
    hin | hv
  · exact absurd hin (by simp [initOrch])
  · exact validateMindMap_structure hv

/-- Concrete valid map used by the C5 witness. -/
def demoMap : MindMap :=
  ⟨[⟨"a", "Alpha"⟩, ⟨"b", "Beta"⟩], [⟨"e1", "a", "b"⟩]⟩

theorem persisted_mindMap_structurally_valid_witness :
    ((demoMap.nodes.map MindMapNode.id).dedup.length =
      demoMap.nodes.length) ∧
    ∀ e ∈ demoMap.edges, e.source ∈ demoMap.nodes.map MindMapNode.id ∧
      e.target ∈ demoMap.nodes.map MindMapNode.id := by
  have hmem : (MindMapRow.mk "s" demoMap "m") ∈
      (runOrch ⟨"m", "m", "p", "q"⟩ (fun _ => "r") (fun _ => "r")
        (fun _ => some demoMap) initOrch [⟨"s", "hi"⟩]).mindMaps := by
    have heq : (runOrch ⟨"m", "m", "p", "q"⟩ (fun _ => "r") (fun _ => "r")
        (fun _ => some demoMap) initOrch [⟨"s", "hi"⟩]).mindMaps =
        [MindMapRow.mk "s" demoMap "m"] := by rfl
    rw [heq]
    exact List.mem_singleton_self _
  exact persisted_mindMap_structurally_valid ⟨"m", "m", "p", "q"⟩
    (fun _ => "r") (fun _ => "r") (fun _ => some demoMap) [⟨"s", "hi"⟩]
    (MindMapRow.mk "s" demoMap "m") hmem

/-! ## AudioCaptureService.createWAVFile
(`src/frontend/src/services/audioCaptureService.ts`, lines 328–381)

Bytes are naturals below 256; `DataView.setUint32`/`setUint16` with
`littleEndian = true` write the value modulo 2^32 (resp. 2^16)
little-endian, and the four big-endian magic writes are spelled out as
their byte lists. -/

/-- Little-endian bytes of a 16-bit write (`setUint16 _ v true`). -/
def u16le (v : Nat) : List Nat := [v % 256, v / 256 % 256]

/-- Little-endian bytes of a 32-bit write (`setUint32 _ v true`). -/
def u32le (v : Nat) : List Nat :=
  [v % 256, v / 256 % 256, v / 65536 % 256, v / 16777216 % 256]

/-- Value of two little-endian bytes. -/
def decodeU16le : List Nat → Nat
  | [b0, b1] => b0 + 256 * b1
  | _ => 0

/-- Value of four little-endian bytes. -/
def decodeU32le : List Nat → Nat
  | [b0, b1, b2, b3] => b0 + 256 * b1 + 65536 * b2 + 16777216 * b3
  | _ => 0

lemma decodeU32le_u32le (v : Nat) : decodeU32le (u32le v) = v % 4294967296 := by
  simp only [u32le, decodeU32le]
  omega

lemma decodeU16le_u16le (v : Nat) : decodeU16le (u16le v) = v % 65536 := by
  simp only [u16le, decodeU16le]
  omega

/-- Little-endian backing bytes of one `Int16Array` element. -/
def sampleBytes (x : Int) : List Nat :=
  [(x % 65536).toNat % 256, (x % 65536).toNat / 256]

/-- Embedded from `AudioCaptureService.createWAVFile`: 44-byte
RIFF/WAVE header followed by the 16-bit little-endian samples.  The
`sampleRate` and `channels` parameters come from `this.config`. -/
def createWAVFile (sampleRate channels : Nat) (pcmData : List Int) :
    List Nat :=
  let bitsPerSample := 16
  let bytesPerSample := bitsPerSample / 8
  let blockAlign := channels * bytesPerSample
  let byteRate := sampleRate * blockAlign
  let dataSize := pcmData.length * bytesPerSample
  let fileSize := 36 + dataSize
  [0x52, 0x49, 0x46, 0x46] ++ u32le fileSize ++
  [0x57, 0x41, 0x56, 0x45] ++
  [0x66, 0x6d, 0x74, 0x20] ++ u32le 16 ++ u16le 1 ++ u16le channels ++
  u32le sampleRate ++ u32le byteRate ++ u16le blockAlign ++
  u16le bitsPerSample ++
  [0x64, 0x61, 0x74, 0x61] ++ u32le dataSize ++
  pcmData.flatMap sampleBytes

lemma length_bind_sampleBytes (pcm : List Int) :
    (pcm.flatMap sampleBytes).length = 2 * pcm.length := by
  induction pcm with
  | nil => rfl
  | cons x l ih =>
    simp only [List.flatMap_cons, List.length_append, ih, sampleBytes,
      List.length_cons, List.length_nil]
    omega

lemma createWAVFile_eq (pcm : List Int) :
    createWAVFile 16000 1 pcm =
      [0x52, 0x49, 0x46, 0x46] ++ u32le (36 + pcm.length * 2) ++
      [0x57, 0x41, 0x56, 0x45] ++
      [0x66, 0x6d, 0x74, 0x20] ++ u32le 16 ++ u16le 1 ++ u16le 1 ++
      u32le 16000 ++ u32le 32000 ++ u16le 2 ++ u16le 16 ++
      [0x64, 0x61, 0x74, 0x61] ++ u32le (pcm.length * 2) ++
      pcm.flatMap sampleBytes := by
  norm_num [createWAVFile]

/-- C6: under the default configuration (16 kHz, mono),
`createWAVFile` returns a complete RIFF/WAVE container for mono 16-bit
16 kHz PCM: it is the `"RIFF"` magic, the RIFF size field holding
`36 + dataSize`, the `"WAVE"` tag, an `"fmt "` chunk of size 16 with
audio format 1 (PCM), 1 channel, sample rate 16000, byte rate 32000,
block align 2, 16 bits per sample, a `"data"` chunk whose size field
holds `2 × samples`, then the samples little-endian; total length is
`44 + dataSize` bytes.  The two size fields are 32-bit writes, so the
stated values require `36 + dataSize < 2^32`. -/
theorem createWAVFile_riff_structure (pcm : List Int)
    (h32 : 36 + 2 * pcm.length < 4294967296) :
    createWAVFile 16000 1 pcm =
      [0x52, 0x49, 0x46, 0x46] ++ u32le (36 + pcm.length * 2) ++
      [0x57, 0x41, 0x56, 0x45] ++
      [0x66, 0x6d, 0x74, 0x20] ++ u32le 16 ++ u16le 1 ++ u16le 1 ++
      u32le 16000 ++ u32le 32000 ++ u16le 2 ++ u16le 16 ++
      [0x64, 0x61, 0x74, 0x61] ++ u32le (pcm.length * 2) ++
      pcm.flatMap sampleBytes ∧
    (createWAVFile 16000 1 pcm).length = 44 + 2 * pcm.length ∧
    decodeU32le (u32le (36 + pcm.length * 2)) = 36 + 2 * pcm.length ∧
    decodeU32le (u32le (pcm.length * 2)) = 2 * pcm.length ∧
    decodeU32le (u32le 16) = 16 ∧ decodeU16le (u16le 1) = 1 ∧
    decodeU32le (u32le 16000) = 16000 ∧ decodeU16le (u16le 16) = 16 := by
  refine ⟨createWAVFile_eq pcm, ?_, ?_, ?_, by decide, by decide, by decide,
    by decide⟩
  · rw [createWAVFile_eq pcm]
    simp only [List.length_append, length_bind_sampleBytes, u32le, u16le,
      List.length_cons, List.length_nil]
    try omega
  · rw [decodeU32le_u32le]
    omega
  · rw [decodeU32le_u32le]
    omega

theorem createWAVFile_riff_structure_witness :
    (createWAVFile 16000 1 [100, -5]).length = 44 + 2 * 2 ∧
    decodeU32le (u32le (36 + 2 * 2)) = 36 + 2 * 2 := by
  have h := createWAVFile_riff_structure [100, -5] (by norm_num)
  refine ⟨h.2.1, ?_⟩
  have h3 := h.2.2.1
  norm_num at h3 ⊢
  exact h3

/-! ## Sample conversion in AudioCaptureService.sendAudioBuffer
(`src/frontend/src/services/audioCaptureService.ts`, lines 282–286)

`pcmData[i] = Math.max(-32768, Math.min(32767, combinedAudio[i] * 32768))`
stored into an `Int16Array`.  Samples are modelled as rationals
(multiplication by 2^15 is exact on binary floats); the `Int16Array`
element store applies JS `ToInt16`: truncate toward zero, then wrap
modulo 2^16 into `[-2^15, 2^15)`. -/

/-- Truncation toward zero of a rational. -/
def ratTrunc (v : ℚ) : ℤ := if 0 ≤ v then ⌊v⌋ else -⌊-v⌋

/-- JS `ToInt16`: truncate toward zero, wrap modulo 2^16 into
`[-2^15, 2^15)`. -/
def toInt16Store (v : ℚ) : ℤ :=
  let r := ratTrunc v % 65536
  if r < 32768 then r else r - 65536

/-- Embedded from `sendAudioBuffer`: the clamp-then-store conversion of
one float sample to its stored 16-bit value. -/
def floatToInt16 (x : ℚ) : ℤ :=
  toInt16Store (max (-32768) (min 32767 (x * 32768)))

lemma ratTrunc_bounds {v : ℚ} (h1 : -32768 ≤ v) (h2 : v ≤ 32767) :
    -32768 ≤ ratTrunc v ∧ ratTrunc v ≤ 32767 := by
  unfold ratTrunc
  split
  · next h0 =>
    constructor
    · have : (0 : ℤ) ≤ ⌊v⌋ := Int.floor_nonneg.mpr h0
      omega
    · calc ⌊v⌋ ≤ ⌊(32767 : ℚ)⌋ := Int.floor_le_floor h2
        _ = 32767 := by norm_num
  · next h0 =>
    push_neg at h0
    constructor
    · have : ⌊-v⌋ ≤ ⌊(32768 : ℚ)⌋ := Int.floor_le_floor (by linarith)
      have h32 : ⌊(32768 : ℚ)⌋ = 32768 := by norm_num
      omega
    · have : (0 : ℤ) ≤ ⌊-v⌋ := Int.floor_nonneg.mpr (by linarith)
      omega

lemma toInt16Store_of_bounds {v : ℚ} (h1 : -32768 ≤ ratTrunc v)
    (h2 : ratTrunc v ≤ 32767) : toInt16Store v = ratTrunc v := by
  simp only [toInt16Store]
  split <;> omega

/-- C9: sample conversion never overflows 16-bit storage — the stored
value equals the integer truncation of
`clamp(x × 32768, −32768, 32767)`, hence lies in `[−32768, 32767]`;
every `x ≥ 1.0` maps to 32767 and every `x ≤ −1.0` maps to −32768,
with no wrap-around in the `Int16Array` store. -/
theorem floatToInt16_no_overflow (x : ℚ) :
    floatToInt16 x = ratTrunc (max (-32768) (min 32767 (x * 32768))) ∧
    -32768 ≤ floatToInt16 x ∧ floatToInt16 x ≤ 32767 ∧
    (1 ≤ x → floatToInt16 x = 32767) ∧
    (x ≤ -1 → floatToInt16 x = -32768) := by
  have hv1 : -32768 ≤ max (-32768 : ℚ) (min 32767 (x * 32768)) :=
    le_max_left _ _
  have hv2 : max (-32768 : ℚ) (min 32767 (x * 32768)) ≤ 32767 :=
    max_le (by norm_num) (min_le_left _ _)
  obtain ⟨ht1, ht2⟩ := ratTrunc_bounds hv1 hv2
  have hid : floatToInt16 x =
      ratTrunc (max (-32768) (min 32767 (x * 32768))) :=
    toInt16Store_of_bounds ht1 ht2
  refine ⟨hid, by rw [hid]; exact ht1, by rw [hid]; exact ht2, ?_, ?_⟩
  · intro hx
    have hmin : min (32767 : ℚ) (x * 32768) = 32767 :=
      min_eq_left (by linarith)
    have hmax : max (-32768 : ℚ) (32767 : ℚ) = 32767 :=
      max_eq_right (by norm_num)
    rw [hid, hmin, hmax]
    unfold ratTrunc
    rw [if_pos (by norm_num)]
    norm_num
  · intro hx
    have hmin : min (32767 : ℚ) (x * 32768) = x * 32768 :=
      min_eq_right (by linarith)
    have hmax : max (-32768 : ℚ) (x * 32768) = -32768 :=
      max_eq_left (by linarith)
    rw [hid, hmin, hmax]
    unfold ratTrunc
    rw [if_neg (by norm_num)]
    norm_num

theorem floatToInt16_no_overflow_witness :
    floatToInt16 2 = 32767 ∧ floatToInt16 (-3) = -32768 :=
  ⟨(floatToInt16_no_overflow 2).2.2.2.1 (by norm_num),
   (floatToInt16_no_overflow (-3)).2.2.2.2 (by norm_num)⟩

/-! ## WebSocketService.arrayBufferToBase64
(`src/frontend/src/services/websocketService.ts`, lines 456–464)

The source builds a binary string whose i-th character's code point is
byte i (`String.fromCharCode(bytes[i])`, identity on code points below
256) and applies `window.btoa`, i.e. standard base64 over those code
points.  Bytes are naturals below 256. -/

/-- The standard base64 alphabet. -/
def base64Alphabet : List Char :=
  ['A', 'B', 'C', 'D', 'E', 'F', 'G', 'H', 'I', 'J', 'K', 'L', 'M',
   'N', 'O', 'P', 'Q', 'R', 'S', 'T', 'U', 'V', 'W', 'X', 'Y', 'Z',
   'a', 'b', 'c', 'd', 'e', 'f', 'g', 'h', 'i', 'j', 'k', 'l', 'm',
   'n', 'o', 'p', 'q', 'r', 's', 't', 'u', 'v', 'w', 'x', 'y', 'z',
   '0', '1', '2', '3', '4', '5', '6', '7', '8', '9', '+', '/']

/-- Alphabet character of a sextet. -/
def b64Char (i : Nat) : Char := base64Alphabet.getD i 'A'

/-- Index of a base64 character in the alphabet. -/
def b64Index (c : Char) : Nat := base64Alphabet.indexOf c

/-- `window.btoa` on the binary string: standard base64 with `=`
padding, processing three bytes into four sextet characters. -/
def encodeB64 : List Nat → List Char
  | [] => []
  | [b1] => [b64Char (b1 / 4), b64Char (b1 % 4 * 16), '=', '=']
  | [b1, b2] =>
    [b64Char (b1 / 4), b64Char (b1 % 4 * 16 + b2 / 16),
     b64Char (b2 % 16 * 4), '=']
  | b1 :: b2 :: b3 :: rest =>
    b64Char (b1 / 4) :: b64Char (b1 % 4 * 16 + b2 / 16) ::
    b64Char (b2 % 16 * 4 + b3 / 64) :: b64Char (b3 % 64) ::
    encodeB64 rest

/-- Embedded from `WebSocketService.arrayBufferToBase64`: build the
binary string from the bytes and apply `btoa`. -/
def arrayBufferToBase64 (bytes : List Nat) : List Char := encodeB64 bytes

/-- Standard base64 decoding: four characters yield three bytes, with
`=` padding marking one- and two-byte final groups. -/
def decodeB64 : List Char → List Nat
  | c1 :: c2 :: c3 :: c4 :: rest =>
    if c3 = '=' then [b64Index c1 * 4 + b64Index c2 / 16]
    else if c4 = '=' then
      [b64Index c1 * 4 + b64Index c2 / 16,
       b64Index c2 % 16 * 16 + b64Index c3 / 4]
    else
      (b64Index c1 * 4 + b64Index c2 / 16) ::
      (b64Index c2 % 16 * 16 + b64Index c3 / 4) ::
      (b64Index c3 % 4 * 64 + b64Index c4) ::
      decodeB64 rest
  | _ => []

lemma b64Index_b64Char : ∀ i : Fin 64, b64Index (b64Char i) = i := by
  decide

lemma b64Index_b64Char_of_lt {i : Nat} (h : i < 64) :
    b64Index (b64Char i) = i := b64Index_b64Char ⟨i, h⟩

lemma b64Char_ne_pad (i : Nat) : b64Char i ≠ '=' := by
  unfold b64Char
  rcases Nat.lt_or_ge i 64 with h | h
  · have hl : i < base64Alphabet.length := by
      have h64 : base64Alphabet.length = 64 := by decide
      omega
    rw [List.getD_eq_getElem _ _ hl]
    intro hc
    have hmem : base64Alphabet[i] ∈ base64Alphabet := List.getElem_mem hl
    rw [hc] at hmem
    exact absurd hmem (by decide)
  · have hlen : base64Alphabet.length ≤ i := by
      have h64 : base64Alphabet.length = 64 := by decide
      omega
    rw [List.getD_eq_default _ _ hlen]
    decide

/-- C7: the two inbound frame shapes carry identical bytes — standard
base64 decoding of the string produced by
`WebSocketService.arrayBufferToBase64` (used by `sendAudioChunk` to
build the text envelope) yields exactly the original byte array, so a
frame delivered via the text envelope carries the same bytes as the
same frame delivered as a raw binary frame. -/
theorem arrayBufferToBase64_roundtrip (bs : List Nat)
    (hb : ∀ b ∈ bs, b < 256) :
    decodeB64 (arrayBufferToBase64 bs) = bs := by
  unfold arrayBufferToBase64
  revert hb
  induction bs using encodeB64.induct with
  | case1 =>
    intro _
    rfl
  | case2 b1 =>
    intro hb
    have h1 : b1 < 256 := hb b1 (by simp)
    simp only [encodeB64, decodeB64]
    rw [if_pos trivial]
    rw [b64Index_b64Char_of_lt (by omega : b1 / 4 < 64),
        b64Index_b64Char_of_lt (by omega : b1 % 4 * 16 < 64)]
    simp only [List.cons.injEq, and_true]
    omega
  | case3 b1 b2 =>
    intro hb
    have h1 : b1 < 256 := hb b1 (by simp)
    have h2 : b2 < 256 := hb b2 (by simp)
    simp only [encodeB64, decodeB64]
    rw [if_neg (b64Char_ne_pad _), if_pos trivial]
    rw [b64Index_b64Char_of_lt (by omega : b1 / 4 < 64),
        b64Index_b64Char_of_lt (by omega : b1 % 4 * 16 + b2 / 16 < 64),
        b64Index_b64Char_of_lt (by omega : b2 % 16 * 4 < 64)]
    simp only [List.cons.injEq, and_true]
    omega
  | case4 b1 b2 b3 rest ih =>
    intro hb
    have h1 : b1 < 256 := hb b1 (by simp)
    have h2 : b2 < 256 := hb b2 (by simp)
    have h3 : b3 < 256 := hb b3 (by simp)
    have hrest : ∀ b ∈ rest, b < 256 := fun b hbm =>
      hb b (by simp [hbm])
    simp only [encodeB64, decodeB64]
    rw [if_neg (b64Char_ne_pad _), if_neg (b64Char_ne_pad _)]
    rw [b64Index_b64Char_of_lt (by omega : b1 / 4 < 64),
        b64Index_b64Char_of_lt (by omega : b1 % 4 * 16 + b2 / 16 < 64),
        b64Index_b64Char_of_lt (by omega : b2 % 16 * 4 + b3 / 64 < 64),
        b64Index_b64Char_of_lt (by omega : b3 % 64 < 64)]
    rw [ih hrest]
    simp only [List.cons.injEq, and_true]
    refine ⟨by omega, by omega, by omega⟩

theorem arrayBufferToBase64_roundtrip_witness :
    decodeB64 (arrayBufferToBase64 [72, 101, 255, 0]) =
      [72, 101, 255, 0] :=
  arrayBufferToBase64_roundtrip [72, 101, 255, 0] (by decide)

/-! ## WebSocketService outbound operations
(`src/frontend/src/services/websocketService.ts`, lines 115–219)

The service state is the connection flag (`isConnected`), whether
`this.ws` is non-null (`wsOpen`), and the list of messages handed to
`ws.send` so far.  Every outbound operation first checks
`if (!this.isConnected || !this.ws) return false`. -/

/-- A message handed to `ws.send`. -/
inductive OutMsg
  | audioEnvelope (b64 : List Char) (sessionId : Option String)
  | binaryFrame (bytes : List Nat)
  | statusMsg (action : String) (sessionId : Option String)
deriving DecidableEq, Repr

/-- The observable state of `WebSocketService`. -/
structure WSState where
  isConnected : Bool
  wsOpen : Bool
  sent : List OutMsg
deriving DecidableEq, Repr

/-- Embedded from `WebSocketService.sendAudioChunk`: refuse when
disconnected; otherwise base64-encode the bytes and send the
`audio_chunk` text envelope. -/
def sendAudioChunk (ws : WSState) (bytes : List Nat)
    (sessionId : Option String) : Bool × WSState :=
  if !ws.isConnected || !ws.wsOpen then (false, ws)
  else
    (true,
     { ws with sent := ws.sent ++
        [OutMsg.audioEnvelope (arrayBufferToBase64 bytes) sessionId] })

/-- Embedded from `WebSocketService.sendBinaryAudio`: refuse when
disconnected; otherwise send the raw binary frame. -/
def sendBinaryAudio (ws : WSState) (bytes : List Nat) :
    Bool × WSState :=
  if !ws.isConnected || !ws.wsOpen then (false, ws)
  else (true, { ws with sent := ws.sent ++ [OutMsg.binaryFrame bytes] })

/-- Embedded from `WebSocketService.startAudioStream`: refuse when
disconnected; otherwise send the `start_stream` status message. -/
def startAudioStream (ws : WSState) (sessionId : Option String) :
    Bool × WSState :=
  if !ws.isConnected || !ws.wsOpen then (false, ws)
  else
    (true,
     { ws with sent := ws.sent ++
        [OutMsg.statusMsg "start_stream" sessionId] })

/-- Embedded from `WebSocketService.stopAudioStream`: refuse when
disconnected; otherwise send the `stop_stream` status message. -/
def stopAudioStream (ws : WSState) (sessionId : Option String) :
    Bool × WSState :=
  if !ws.isConnected || !ws.wsOpen then (false, ws)
  else
    (true,
     { ws with sent := ws.sent ++
        [OutMsg.statusMsg "stop_stream" sessionId] })

/-- C10: every outbound transport operation is a no-op when
disconnected — whenever `isConnected` is false or `ws` is null,
`sendAudioChunk`, `sendBinaryAudio`, `startAudioStream` and
`stopAudioStream` return false, send no message and leave the service
state unchanged. -/
theorem disconnected_ops_are_noops (ws : WSState) (bytes : List Nat)
    (sid : Option String)
    (h : ws.isConnected = false ∨ ws.wsOpen = false) :
    sendAudioChunk ws bytes sid = (false, ws) ∧
    sendBinaryAudio ws bytes = (false, ws) ∧
    startAudioStream ws sid = (false, ws) ∧
    stopAudioStream ws sid = (false, ws) := by
  rcases h with h | h <;>
    exact ⟨by simp [sendAudioChunk, h], by simp [sendBinaryAudio, h],
      by simp [startAudioStream, h], by simp [stopAudioStream, h]⟩

theorem disconnected_ops_are_noops_witness :
    sendAudioChunk ⟨false, true, []⟩ [1, 2] none =
      (false, ⟨false, true, []⟩) ∧
    stopAudioStream ⟨false, true, []⟩ none = (false, ⟨false, true, []⟩) := by
  have h := disconnected_ops_are_noops ⟨false, true, []⟩ [1, 2] none
    (Or.inl rfl)
  exact ⟨h.1, h.2.2.2⟩

/-! ## AudioCaptureService buffering and stop
(`src/frontend/src/services/audioCaptureService.ts`, lines 152–186 and
266–323)

Recording state: the `isRecording` flag, the session id, and the
accumulated `Float32Array` chunks (samples as rationals). -/

/-- The observable state of `AudioCaptureService`. -/
structure AudioState where
  isRecording : Bool
  sessionId : Option String
  audioBuffer : List (List ℚ)
  bufferSize : Nat
deriving Repr

/-- Embedded from `AudioCaptureService.sendAudioBuffer`: return when
the buffer is empty; otherwise combine the chunks, convert the samples
to 16-bit PCM with the clamp conversion, build the WAV file (default
configuration: 16 kHz mono), hand it to
`WebSocketService.sendAudioChunk`, and clear the buffer. -/
def sendAudioBuffer (a : AudioState) (ws : WSState) :
    AudioState × WSState :=
  if a.audioBuffer.isEmpty then (a, ws)
  else
    let combinedAudio := a.audioBuffer.flatten
    let pcmData := combinedAudio.map floatToInt16
    let wavBuffer := createWAVFile 16000 1 pcmData
    let r := sendAudioChunk ws wavBuffer a.sessionId
    ({ a with audioBuffer := [], bufferSize := 0 }, r.2)

/-- Embedded from `AudioCaptureService.stopRecording`: return
immediately when not recording; otherwise flush a non-empty buffer via
`sendAudioBuffer`, send `stop_stream` when a session id is set, and
clear the recording flag. -/
def stopRecording (a : AudioState) (ws : WSState) :
    Bool × AudioState × WSState :=
  if !a.isRecording then (true, a, ws)
  else
    let r1 := if a.audioBuffer.length > 0 then sendAudioBuffer a ws
              else (a, ws)
    let ws2 := match r1.1.sessionId with
      | some sid => (stopAudioStream r1.2 (some sid)).2
      | none => r1.2
    (true, { r1.1 with isRecording := false }, ws2)

/-- C8: short trailing buffers are flushed on stop — whenever
`stopRecording` is called while recording with a non-empty accumulated
buffer (and a live connection to deliver to), the buffered audio is
sent via `sendAudioBuffer` before the `stop_stream` status message,
and the recording state is cleared with an empty buffer, so no
buffered audio is silently discarded by stopping. -/
theorem stopRecording_flushes_buffer (a : AudioState) (ws : WSState)
    (sid : String) (hrec : a.isRecording = true)
    (hbuf : a.audioBuffer ≠ []) (hsid : a.sessionId = some sid)
    (hconn : ws.isConnected = true) (hopen : ws.wsOpen = true) :
    (stopRecording a ws).1 = true ∧
    (stopRecording a ws).2.2.sent = ws.sent ++
      [OutMsg.audioEnvelope
        (arrayBufferToBase64
          (createWAVFile 16000 1 (a.audioBuffer.flatten.map floatToInt16)))
        (some sid),
       OutMsg.statusMsg "stop_stream" (some sid)] ∧
    (stopRecording a ws).2.1.isRecording = false ∧
    (stopRecording a ws).2.1.audioBuffer = [] := by
  have hlen : 0 < a.audioBuffer.length := List.length_pos.mpr hbuf
  have hemp : a.audioBuffer.isEmpty = false := by
    rw [List.isEmpty_eq_false]
    exact hbuf
  simp only [stopRecording, hrec, Bool.not_true, Bool.false_eq_true,
    if_false, hlen, if_pos, sendAudioBuffer, hemp, sendAudioChunk,
    hconn, hopen, Bool.not_true, Bool.or_self, Bool.false_eq_true,
    if_false, hsid, stopAudioStream, List.append_assoc,
    List.singleton_append]
  refine ⟨?_, ?_, ?_, ?_⟩ <;> trivial

/-- Concrete recording state used by the C8 witness. -/
def audioStateW : AudioState := ⟨true, some "s1", [[(1 : ℚ), 0]], 8⟩

/-- Concrete transport state used by the C8 witness. -/
def wsStateW : WSState := ⟨true, true, []⟩

theorem stopRecording_flushes_buffer_witness :
    (stopRecording audioStateW wsStateW).1 = true ∧
    (stopRecording audioStateW wsStateW).2.2.sent = wsStateW.sent ++
      [OutMsg.audioEnvelope
        (arrayBufferToBase64
          (createWAVFile 16000 1
            (audioStateW.audioBuffer.flatten.map floatToInt16)))
        (some "s1"),
       OutMsg.statusMsg "stop_stream" (some "s1")] ∧
    (stopRecording audioStateW wsStateW).2.1.isRecording = false ∧
    (stopRecording audioStateW wsStateW).2.1.audioBuffer = [] :=
  stopRecording_flushes_buffer audioStateW wsStateW "s1" rfl
    (by simp [audioStateW]) rfl rfl rfl
